import Mathlib

/-!
Verification development for the multicolour-seed database seeder.

The source is a single JavaScript class exposing:
  - value generators (`generate_string`, `generate_number`, `generate_date`,
    and an inline boolean draw),
  - a payload builder (`generate_payload_from_definition`),
  - a seeding orchestrator (`get_models_and_seed`), and
  - an association resolver (`resolve_and_make_associations`).

The embedding below translates those functions into Lean.  Randomness is
modelled by explicit choice streams (`Nat`-valued): each primitive of the
external random-js library is modelled as a deterministic function of the
attribute data and the supplied choices, realising a uniform draw by reducing
the choice modulo the size of the sample space.  JavaScript exceptions
(e.g. reading `.type` off a bare-string descriptor) are modelled with
`Except String`.
-/

namespace MulticolourSeed

/-- Simplified JavaScript `Date`: year, 0-based month, day of month.
Only the calendar fields the source reads and constructs are modelled. -/
structure JSDate where
  year : Int
  month : Int
  day : Int
  deriving DecidableEq, Repr

/-- Model of the JavaScript `new Date(year, month, day)` constructor:
a month outside `[0, 11]` overflows into the year (the source only ever
builds dates whose day is valid for the resulting month, so day overflow
is not modelled). -/
def mkJSDate (y m d : Int) : JSDate :=
  ⟨y + m.ediv 12, m.emod 12, d⟩

/-- Injective monotone code of a calendar date, standing in for the
millisecond timestamp that `Date.getTime()` would return: months get 31
slots each, years 372 slots. -/
def dateCode (d : JSDate) : Int :=
  d.year * 372 + d.month * 31 + (d.day - 1)

/-- Inverse of `dateCode` on the grid of codes. -/
def dateFromCode (n : Int) : JSDate :=
  ⟨n.ediv 372, (n.emod 372).ediv 31, (n.emod 372).emod 31 + 1⟩

/-- A persisted record as the association resolver sees it: only the
store-assigned identifier `id` is ever read by the source. -/
structure Record where
  id : Int
  deriving DecidableEq, Repr

/-- An attribute descriptor object.  Fields the source never reads
(notably `size`) are still carried, since claims quantify over them.
`before`/`after` are callables in the source; they are modelled by the
date value the callable returns. -/
structure Attribute where
  type : Option String := none
  model : Option String := none
  collection : Option String := none
  primaryKey : Bool := false
  size : Option Int := none
  min : Option Int := none
  max : Option Int := none
  minLength : Option Nat := none
  maxLength : Option Nat := none
  enum : Option (List String) := none
  before : Option JSDate := none
  after : Option JSDate := none
  email : Bool := false
  url : Bool := false
  urlish : Bool := false
  float : Bool := false
  deriving DecidableEq, Repr

/-- A descriptor in a model definition is polymorphic in JavaScript:
either a full object, or a bare type-name string. -/
inductive Descriptor where
  | shorthand (typeName : String)
  | full (a : Attribute)
  deriving DecidableEq, Repr

/-- A generated payload value. -/
inductive Value where
  | str (s : String)
  | num (q : ℚ)
  | date (d : JSDate)
  | bool (b : Bool)
  deriving DecidableEq, Repr

/-- A payload: ordered attribute-name/value pairs (JS object in insertion
order). -/
abbrev Payload := List (String × Value)

/-- A registered model: its `meta.junctionTable` flag and its
`_attributes` definition mapping. -/
structure Model where
  junctionTable : Bool
  attributes : List (String × Descriptor)
  deriving DecidableEq, Repr

/-- The patch value of an issued update: a single identifier for a
`model` (to-one) association, a list for a `collection` (to-many). -/
inductive UpdateVal where
  | one (id : Int)
  | many (ids : List Int)
  deriving DecidableEq, Repr

/-- One `model.update({id: …}, {key: value}, …)` call issued by the
association resolver. -/
structure Update where
  model_name : String
  record_id : Int
  key : String
  val : UpdateVal
  deriving DecidableEq, Repr

/-- JavaScript truthiness of a possibly-absent string property:
`undefined` and the empty string are falsy, every other string truthy. -/
def truthyStr : Option String → Bool
  | none => false
  | some s => !(s == "")

/-- The truthy value of a possibly-absent string property, when there is
one: models the `if (x) { … use x … }` idiom. -/
def truthyVal : Option String → Option String
  | none => none
  | some s => if s == "" then none else some s

/-- Model of the random-js primitive `Random.integer(min, max)`:
a uniform integer in `[min, max]`, realised by reducing the choice modulo
the width of the range.  The library raises a RangeError when
`max < min`; this model is total, so it is only faithful under a
`min ≤ max` side condition — every theorem below that touches an integer
draw carries that ordering, either as an explicit hypothesis or through
`wf_descriptor`. -/
def random_integer (lo hi : Int) (c : Nat) : Int :=
  lo + (c : Int).emod (hi - lo + 1)

/-- Model of the random-js primitive `Random.real(min, max)`: a uniform
real number in `[min, max]`, realised as `min` plus the range scaled by a
fraction in `[0, 1)` derived from the choice. -/
def random_real (lo hi : Int) (c : Nat) : ℚ :=
  (lo : ℚ) + ((hi : ℚ) - (lo : ℚ)) * ((c % 2 ^ 53 : ℕ) : ℚ) / (2 ^ 53 : ℚ)

/-- Model of the random-js primitive `Random.pick(engine, array)`:
a uniform element of the array; `none` on an empty array (where the
library call cannot return an element). -/
def pick {α : Type} (l : List α) (c : Nat) : Option α :=
  l.get? (c % l.length)

/-- Model of the random-js primitive `Random.bool()`. -/
def random_bool (c : Nat) : Bool :=
  c % 2 == 1

/-- The default character pool of random-js `Random.string()`:
alphanumerics plus underscore and hyphen (which is why the email and url
branches of the source strip `_` and `-`). -/
def string_pool : List Char :=
  "abcdefghijklmnopqrstuvwxyzABCDEFGHIJKLMNOPQRSTUVWXYZ0123456789_-".toList

/-- One uniformly chosen pool character. -/
def random_char (c : Nat) : Char :=
  string_pool.getD (c % string_pool.length) 'a'

/-- Model of random-js `Random.string()(engine, n)`: `n` independent pool
characters drawn from the stream `r`. -/
def random_string (n : Nat) (r : Nat → Nat) : String :=
  ⟨(List.range n).map (fun i => random_char (r i))⟩

/-- Model of random-js `Random.date(start, end)`: a uniform point of the
date grid between the two bounds, via `dateCode` timestamps. -/
def random_date (lo hi : JSDate) (c : Nat) : JSDate :=
  dateFromCode (random_integer (dateCode lo) (dateCode hi) c)

/-- The source's `.replace(/(_|-)/gi, "")`. -/
def strip_underscore_hyphen (s : String) : String :=
  ⟨s.toList.filter (fun ch => !(ch == '_') && !(ch == '-'))⟩

/-- Translation of `generate_string(attribute)`.  The stream `r` supplies
the enum pick at position 0; the long random string consumes the first
`max` positions and the short one the following `min` positions, matching
the order the source draws from its shared engine.  Picking from an empty
`enum` array is a library-level failure, modelled as an error. -/
def generate_string (a : Attribute) (r : Nat → Nat) : Except String String :=
  let min := a.minLength.getD 50
  let max := a.maxLength.getD 255
  match a.enum with
  | some l =>
    match pick l (r 0) with
    | some v => .ok v
    | none => .error "RangeError: Random.pick called on an empty array"
  | none =>
    let long_random_string := random_string max (fun i => r i)
    let short_random_string := random_string min (fun i => r (max + i))
    if a.type == some "email" || a.email then
      .ok (strip_underscore_hyphen
        (short_random_string ++ "@" ++ short_random_string ++ ".com"))
    else if a.url then
      .ok (strip_underscore_hyphen ("http://" ++ short_random_string ++ ".com"))
    else if a.urlish then
      .ok ("/" ++ short_random_string)
    else
      .ok long_random_string

/-- Translation of `generate_number(attribute)`: bounds default to
plus/minus `Number.MAX_SAFE_INTEGER` (`2^53 - 1`) when the descriptor has
no own `min`/`max`; a float is drawn when `type === "float"` or the
`float` flag is truthy, an integer otherwise.  Note the source consults
neither `size` nor the declared numeric type when fixing the bounds.  Like `random_integer`
this is total where the library would raise a RangeError for
`max < min`, so statements about it carry the bound ordering. -/
def generate_number (a : Attribute) (c : Nat) : ℚ :=
  let min : Int := a.min.getD (-(2 ^ 53 - 1))
  let max : Int := a.max.getD (2 ^ 53 - 1)
  if a.type == some "float" || a.float then
    random_real min max c
  else
    ((random_integer min max c : Int) : ℚ)

/-- Translation of `generate_date(attribute)`.  `year` stands for
`new Date().getFullYear()`.  The defaults are
`new Date(year - 10, 1, 1)` and `new Date(year + 10, 12, 31)`; a supplied
`before`/`after` callable (modelled by its returned date, which as an
object is always truthy) overrides the respective default. -/
def generate_date (a : Attribute) (year : Int) (c : Nat) : JSDate :=
  let default_before := mkJSDate (year - 10) 1 1
  let default_after := mkJSDate (year + 10) 12 31
  random_date (a.before.getD default_before) (a.after.getD default_after) c

/-- Model of JavaScript `String.prototype.toLowerCase()` on one ASCII
character. -/
def lowerChar (c : Char) : Char :=
  if c.toNat ≥ 65 && c.toNat ≤ 90 then Char.ofNat (c.toNat + 32) else c

/-- Model of JavaScript `String.prototype.toLowerCase()` (the type names
the source compares against are ASCII). -/
def toLowerStr (s : String) : String :=
  ⟨s.toList.map lowerChar⟩

/-- The skip guard at the top of the payload builder's per-attribute loop:
`definition[name].model || definition[name].collection || name === "id" ||
name === "_id"`.  Reading `.model`/`.collection` off a bare-string
descriptor yields `undefined`, which is falsy. -/
def skip_guard (name : String) (d : Descriptor) : Bool :=
  (match d with
   | .shorthand _ => false
   | .full a => truthyStr a.model || truthyStr a.collection)
  || name == "id" || name == "_id"

/-- The list of type names the payload builder's `switch` recognizes. -/
def recognized_type (t : String) : Bool :=
  t == "email" || t == "string" || t == "integer" || t == "float" ||
  t == "date" || t == "time" || t == "datetime" || t == "boolean"

/-- The body of the payload builder's `switch` on
`definition[name].type.toLowerCase()` for one non-skipped attribute.
Reading `.type` off a bare-string descriptor, or off an object without a
`type` key, gives `undefined`, and calling `.toLowerCase()` on it throws
a TypeError.  `.ok none` means the attribute produces no value (the
primary-key skip in the integer/float branch, or an unrecognized type
falling through the `switch`). -/
def dispatch_attribute (d : Descriptor) (year : Int) (r : Nat → Nat) :
    Except String (Option Value) :=
  match d with
  | .shorthand _ =>
    .error "TypeError: Cannot read properties of undefined (reading toLowerCase)"
  | .full a =>
    match a.type with
    | none =>
      .error "TypeError: Cannot read properties of undefined (reading toLowerCase)"
    | some t =>
      let t := toLowerStr t
      if t == "email" || t == "string" then
        (generate_string a r).map (fun s => some (.str s))
      else if t == "integer" || t == "float" then
        if a.primaryKey then .ok none
        else .ok (some (.num (generate_number a (r 0))))
      else if t == "date" || t == "time" || t == "datetime" then
        .ok (some (.date (generate_date a year (r 0))))
      else if t == "boolean" then
        .ok (some (.bool (random_bool (r 0))))
      else
        .ok none

/-- The per-attribute loop of `generate_payload_from_definition`:
attribute `i` of the definition draws from the sub-stream `ρ i`. -/
def generate_payload_go (year : Int) (ρ : Nat → Nat → Nat) :
    List (String × Descriptor) → Nat → Except String Payload
  | [], _ => .ok []
  | (name, d) :: rest, i =>
    if skip_guard name d then
      generate_payload_go year ρ rest (i + 1)
    else
      match dispatch_attribute d year (ρ i) with
      | .error e => .error e
      | .ok v =>
        match generate_payload_go year ρ rest (i + 1) with
        | .error e => .error e
        | .ok tail =>
          match v with
          | some v => .ok ((name, v) :: tail)
          | none => .ok tail

/-- Translation of `generate_payload_from_definition(definition)`.
`year` stands for the current year, `ρ` for the shared random engine
(one sub-stream per attribute position). -/
def generate_payload_from_definition (definition : List (String × Descriptor))
    (year : Int) (ρ : Nat → Nat → Nat) : Except String Payload :=
  generate_payload_go year ρ definition 0

/-- First-match lookup in an association list; stands for `Map.get` on
the `new Map(created)` built by the resolver (its keys are one entry per
model name, so first match and last match coincide). -/
def lookup_assoc {β : Type} (m : List (String × β)) (k : String) : Option β :=
  match m.find? (fun p => p.1 == k) with
  | some p => some p.2
  | none => none

/-- Resolution of one attribute of one created record, translating the
body of the resolver's `.map` callback.  A truthy `model` property wins
over `collection` (the source's `if`/`else if`).  The stream positions
`pos`, `pos+1`, `pos+2` model consecutive draws from the shared engine;
the new position is returned.  `Random.pick` on the created set of a
model that was never seeded (absent from the map, so `undefined`) or on
an empty created set is a library-level failure. -/
def resolve_attribute (mapped : List (String × List Record))
    (model_name : String) (record_id : Int) (d : Descriptor)
    (σ : Nat → Nat) (pos : Nat) : Except String (List Update × Nat) :=
  match d with
  | .shorthand _ => .ok ([], pos)
  | .full a =>
    match truthyVal a.model with
    | some target =>
      match lookup_assoc mapped target with
      | none => .error "TypeError: Random.pick called on undefined"
      | some peers =>
        match pick peers (σ pos) with
        | none => .error "RangeError: Random.pick called on an empty array"
        | some peer =>
          .ok ([⟨model_name, record_id, target, .one peer.id⟩], pos + 1)
    | none =>
      match truthyVal a.collection with
      | some target =>
        match lookup_assoc mapped target with
        | none => .error "TypeError: Random.pick called on undefined"
        | some peers =>
          match pick peers (σ pos), pick peers (σ (pos + 1)),
              pick peers (σ (pos + 2)) with
          | some p1, some p2, some p3 =>
            .ok ([⟨model_name, record_id, target,
                  .many [p1.id, p2.id, p3.id]⟩], pos + 3)
          | _, _, _ =>
            .error "RangeError: Random.pick called on an empty array"
      | none => .ok ([], pos)

/-- Resolution of all attributes of one created record (the
`filter`/`map` over `Object.keys(model._attributes)`). -/
def resolve_attributes (mapped : List (String × List Record))
    (model_name : String) (record_id : Int) :
    List (String × Descriptor) → (Nat → Nat) → Nat →
    Except String (List Update × Nat)
  | [], _, pos => .ok ([], pos)
  | (_, d) :: rest, σ, pos =>
    match resolve_attribute mapped model_name record_id d σ pos with
    | .error e => .error e
    | .ok (us, pos') =>
      match resolve_attributes mapped model_name record_id rest σ pos' with
      | .error e => .error e
      | .ok (us', pos'') => .ok (us ++ us', pos'')

/-- Resolution over every created record of one model
(`mapped_created.get(model_name).forEach(…)`). -/
def resolve_records (mapped : List (String × List Record))
    (model_name : String) (attrs : List (String × Descriptor)) :
    List Record → (Nat → Nat) → Nat → Except String (List Update × Nat)
  | [], _, pos => .ok ([], pos)
  | rec :: rest, σ, pos =>
    match resolve_attributes mapped model_name rec.id attrs σ pos with
    | .error e => .error e
    | .ok (us, pos') =>
      match resolve_records mapped model_name attrs rest σ pos' with
      | .error e => .error e
      | .ok (us', pos'') => .ok (us ++ us', pos'')

/-- The resolver's outer loop over `Object.keys(models)`: junction tables
are skipped; for a seeded model its created records are fetched from the
map (`forEach` on `undefined` throws when the model was never seeded). -/
def resolve_models (mapped : List (String × List Record)) :
    List (String × Model) → (Nat → Nat) → Nat →
    Except String (List Update × Nat)
  | [], _, pos => .ok ([], pos)
  | (mn, m) :: rest, σ, pos =>
    if m.junctionTable then
      resolve_models mapped rest σ pos
    else
      match lookup_assoc mapped mn with
      | none => .error "TypeError: Cannot read properties of undefined (reading forEach)"
      | some recs =>
        match resolve_records mapped mn m.attributes recs σ pos with
        | .error e => .error e
        | .ok (us, pos') =>
          match resolve_models mapped rest σ pos' with
          | .error e => .error e
          | .ok (us', pos'') => .ok (us ++ us', pos'')

/-- Translation of `resolve_and_make_associations(created, models)`:
`created` is the Async.parallel result, a list of
`(model_name, created_records)` pairs; the result is the list of update
calls issued, in issue order. -/
def resolve_and_make_associations (created : List (String × List Record))
    (models : List (String × Model)) (σ : Nat → Nat) :
    Except String (List Update) :=
  match resolve_models created models σ 0 with
  | .error e => .error e
  | .ok (us, _) => .ok us

/-- The payload-building loop of `get_models_and_seed` for one model:
`iterations` payloads, iteration `i` drawing from sub-stream `ρ i`. -/
def build_payloads (defn : List (String × Descriptor)) (iterations : Nat)
    (year : Int) (ρ : Nat → Nat → Nat → Nat) :
    Except String (List Payload) :=
  (List.range iterations).mapM
    (fun i => generate_payload_from_definition defn year (ρ i))

/-- The first phase of `get_models_and_seed`: every non-junction model
gets `iterations` generated payloads, keyed by model name
(`this.models_payloads`). -/
def build_batches (models : List (String × Model)) (iterations : Nat)
    (year : Int) (ρ : String → Nat → Nat → Nat → Nat) :
    Except String (List (String × List Payload)) :=
  (models.filter (fun p => !p.2.junctionTable)).mapM
    (fun p => (build_payloads p.2.attributes iterations year (ρ p.1)).map
      (fun ps => (p.1, ps)))

/-- Model of `Async.parallel` over the per-model create tasks: every
task calls `models[name].create(payloads, …)`; if any create fails the
combined callback receives that error, otherwise the ordered list of
`(model_name, created_records)` results. -/
def run_tasks (batches : List (String × List Payload))
    (cr : String → List Payload → Except String (List Record)) :
    Except String (List (String × List Record)) :=
  match batches with
  | [] => .ok []
  | (mn, ps) :: rest =>
    match cr mn ps with
    | .error e => .error e
    | .ok recs =>
      match run_tasks rest cr with
      | .error e => .error e
      | .ok tail => .ok ((mn, recs) :: tail)

/-- Outcome of one seeding run: whether the Async.parallel callback saw a
create error (and only logged it), whether
`resolve_and_make_associations` was invoked, and the update calls it
issued. -/
structure RunOutcome where
  create_error : Bool
  resolver_invoked : Bool
  updates : List Update
  deriving DecidableEq, Repr

/-- Translation of `get_models_and_seed`: build batches of payloads for
all non-junction models, run all create tasks, and on joint success hand
the created records to the association resolver; a create failure is
reported and resolution never happens.  A thrown resolver error escapes
the callback, so no update list is observed in that case. -/
def seed_run (models : List (String × Model)) (iterations : Nat)
    (year : Int) (ρ : String → Nat → Nat → Nat → Nat)
    (cr : String → List Payload → Except String (List Record))
    (σ : Nat → Nat) : Except String RunOutcome :=
  match build_batches models iterations year ρ with
  | .error e => .error e
  | .ok batches =>
    match run_tasks batches cr with
    | .error _ => .ok ⟨true, false, []⟩
    | .ok created =>
      match resolve_and_make_associations created models σ with
      | .ok us => .ok ⟨false, true, us⟩
      | .error _ => .ok ⟨false, true, []⟩

/-- Well-formedness of one definition entry: the conditions under which
the real program's generator calls cannot throw.  Either the attribute
falls under the skip guard, or it is a full object with a `type` string
and the generator its lower-cased type dispatches to stays inside the
random-js library's domain: a string/email draw needs any `enum` present
to be non-empty (`Random.pick` fails on an empty array); a
non-primary-key integer/float draw needs its effective bounds ordered
(`Random.integer` raises a RangeError when `max < min`); a
date/time/datetime draw needs its effective bounds ordered likewise
(`Random.date` feeds both timestamps to `Random.integer`), a condition
that depends on the current `year` through the default bounds. -/
def wf_descriptor (year : Int) (name : String) (d : Descriptor) : Bool :=
  skip_guard name d ||
  (match d with
   | .shorthand _ => false
   | .full a =>
     match a.type with
     | none => false
     | some t =>
       let tl := toLowerStr t
       if tl == "email" || tl == "string" then
         match a.enum with
         | some l => !l.isEmpty
         | none => true
       else if tl == "integer" || tl == "float" then
         a.primaryKey ||
           decide (a.min.getD (-(2 ^ 53 - 1)) ≤ a.max.getD (2 ^ 53 - 1))
       else if tl == "date" || tl == "time" || tl == "datetime" then
         decide (dateCode (a.before.getD (mkJSDate (year - 10) 1 1)) ≤
           dateCode (a.after.getD (mkJSDate (year + 10) 12 31)))
       else true)

/-! ## Helper lemmas about the random primitives -/

theorem random_integer_mem (lo hi : Int) (c : Nat) (h : lo ≤ hi) :
    lo ≤ random_integer lo hi c ∧ random_integer lo hi c ≤ hi := by
  unfold random_integer
  have h1 : 0 ≤ (c : Int).emod (hi - lo + 1) := Int.emod_nonneg _ (by omega)
  have h2 : (c : Int).emod (hi - lo + 1) < hi - lo + 1 :=
    Int.emod_lt_of_pos _ (by omega)
  omega

theorem random_real_mem (lo hi : Int) (c : Nat) (h : lo ≤ hi) :
    (lo : ℚ) ≤ random_real lo hi c ∧ random_real lo hi c ≤ (hi : ℚ) := by
  unfold random_real
  have hq : (lo : ℚ) ≤ (hi : ℚ) := by exact_mod_cast h
  have hf0 : (0 : ℚ) ≤ ((c % 2 ^ 53 : ℕ) : ℚ) / (2 ^ 53 : ℚ) := by positivity
  have hf1 : ((c % 2 ^ 53 : ℕ) : ℚ) / (2 ^ 53 : ℚ) ≤ 1 := by
    rw [div_le_one (by norm_num)]
    exact_mod_cast le_of_lt (Nat.mod_lt _ (by norm_num))
  constructor
  · nlinarith
  · nlinarith

theorem pick_mem {α : Type} {l : List α} {c : Nat} {x : α}
    (h : pick l c = some x) : x ∈ l := by
  unfold pick at h
  exact List.get?_mem h

theorem pick_ne_nil {α : Type} (l : List α) (c : Nat) (h : l ≠ []) :
    ∃ x, pick l c = some x ∧ x ∈ l := by
  have hlen : 0 < l.length := List.length_pos.mpr h
  have hlt : c % l.length < l.length := Nat.mod_lt _ hlen
  refine ⟨l.get ⟨c % l.length, hlt⟩, ?_, List.get_mem l _ hlt⟩
  unfold pick
  exact List.get?_eq_get hlt

theorem pick_total {α : Type} {l : List α} {x : α} (h : x ∈ l) :
    ∃ c, pick l c = some x := by
  obtain ⟨⟨n, hn⟩, rfl⟩ := List.mem_iff_get.mp h
  refine ⟨n, ?_⟩
  unfold pick
  rw [Nat.mod_eq_of_lt hn]
  exact List.get?_eq_get hn

theorem dateCode_dateFromCode (n : Int) : dateCode (dateFromCode n) = n := by
  unfold dateCode dateFromCode
  simp only
  have h1 : 372 * (n.ediv 372) + n.emod 372 = n := Int.ediv_add_emod n 372
  have h2 : 31 * ((n.emod 372).ediv 31) + (n.emod 372).emod 31 = n.emod 372 :=
    Int.ediv_add_emod _ 31
  omega

/-! ## Helper lemmas about the payload builder -/

theorem generate_string_ok (a : Attribute) (r : Nat → Nat)
    (h : ∀ l, a.enum = some l → l ≠ []) : ∃ s, generate_string a r = .ok s := by
  unfold generate_string
  cases he : a.enum with
  | none =>
    dsimp only
    split
    · exact ⟨_, rfl⟩
    · split
      · exact ⟨_, rfl⟩
      · split
        · exact ⟨_, rfl⟩
        · exact ⟨_, rfl⟩
  | some l =>
    obtain ⟨x, hx, _⟩ := pick_ne_nil l (r 0) (h l he)
    refine ⟨x, ?_⟩
    dsimp only
    rw [hx]

theorem wf_full_elim {year : Int} {name : String} {a : Attribute}
    (h : wf_descriptor year name (.full a) = true)
    (hs : skip_guard name (.full a) = false) :
    ∃ t, a.type = some t ∧
      ((toLowerStr t == "email" || toLowerStr t == "string") = true →
        ∀ l, a.enum = some l → l ≠ []) := by
  unfold wf_descriptor at h
  rw [hs] at h
  simp only [Bool.false_or] at h
  cases ht : a.type with
  | none => rw [ht] at h; dsimp only at h; cases h
  | some t =>
    rw [ht] at h
    dsimp only at h
    refine ⟨t, rfl, ?_⟩
    intro hcond l hl
    rw [if_pos hcond] at h
    rw [hl] at h
    simpa using h

theorem dispatch_attribute_ok (name : String) (d : Descriptor) (year : Int)
    (r : Nat → Nat) (hwf : wf_descriptor year name d = true)
    (hs : skip_guard name d = false) :
    ∃ v, dispatch_attribute d year r = .ok v := by
  match d with
  | .shorthand t =>
    exfalso
    unfold wf_descriptor at hwf
    rw [hs] at hwf
    simp at hwf
  | .full a =>
    obtain ⟨t, ht, henum⟩ := wf_full_elim hwf hs
    unfold dispatch_attribute
    dsimp only
    rw [ht]
    dsimp only
    by_cases hcond : (toLowerStr t == "email" || toLowerStr t == "string") = true
    · rw [if_pos hcond]
      obtain ⟨s, hgen⟩ := generate_string_ok a r (henum hcond)
      rw [hgen]
      exact ⟨some (.str s), rfl⟩
    · rw [if_neg hcond]
      split
      · split
        · exact ⟨_, rfl⟩
        · exact ⟨_, rfl⟩
      · split
        · exact ⟨_, rfl⟩
        · split
          · exact ⟨_, rfl⟩
          · exact ⟨_, rfl⟩

theorem dispatch_attribute_unrecognized (a : Attribute) (t : String)
    (year : Int) (r : Nat → Nat) (ht : a.type = some t)
    (h : recognized_type (toLowerStr t) = false) :
    dispatch_attribute (.full a) year r = .ok none := by
  unfold recognized_type at h
  simp only [Bool.or_eq_false_iff] at h
  unfold dispatch_attribute
  dsimp only
  rw [ht]
  dsimp only
  simp [h.1.1.1.1.1.1.1, h.1.1.1.1.1.1.2, h.1.1.1.1.1.2, h.1.1.1.1.2,
    h.1.1.1.2, h.1.1.2, h.1.2, h.2]

theorem assoc_nodup_unique {β : Type} :
    ∀ {l : List (String × β)} {k : String} {d1 d2 : β},
      (l.map Prod.fst).Nodup → (k, d1) ∈ l → (k, d2) ∈ l → d1 = d2 := by
  intro l
  induction l with
  | nil => intro k d1 d2 _ h1; simp at h1
  | cons hd rest ih =>
    intro k d1 d2 hnd h1 h2
    rw [List.map_cons, List.nodup_cons] at hnd
    rcases List.mem_cons.mp h1 with e1 | m1 <;>
      rcases List.mem_cons.mp h2 with e2 | m2
    · rw [← e2] at e1
      exact congrArg Prod.snd e1
    · exfalso
      apply hnd.1
      rw [← e1]
      simpa using List.mem_map_of_mem Prod.fst m2
    · exfalso
      apply hnd.1
      rw [← e2]
      simpa using List.mem_map_of_mem Prod.fst m1
    · exact ih hnd.2 m1 m2

theorem generate_payload_go_ok {year : Int} {ρ : Nat → Nat → Nat} :
    ∀ {defn : List (String × Descriptor)},
      (∀ q ∈ defn, wf_descriptor year q.1 q.2 = true) →
      ∀ i, ∃ p, generate_payload_go year ρ defn i = .ok p := by
  intro defn
  induction defn with
  | nil => exact fun _ i => ⟨[], rfl⟩
  | cons hd rest ih =>
    intro hwf i
    obtain ⟨name, d⟩ := hd
    obtain ⟨tail, htail⟩ :=
      ih (fun q hq => hwf q (List.mem_cons_of_mem _ hq)) (i + 1)
    by_cases hs : skip_guard name d
    · exact ⟨tail, by simp only [generate_payload_go, if_pos hs]; exact htail⟩
    · obtain ⟨v, hv⟩ := dispatch_attribute_ok name d year (ρ i)
        (hwf _ (List.mem_cons_self _ _)) (by simpa using hs)
      cases v with
      | some v =>
        exact ⟨(name, v) :: tail,
          by simp only [generate_payload_go, if_neg hs, hv, htail]⟩
      | none =>
        exact ⟨tail, by simp only [generate_payload_go, if_neg hs, hv, htail]⟩

theorem generate_payload_go_keys {year : Int} {ρ : Nat → Nat → Nat} :
    ∀ {defn : List (String × Descriptor)} {i : Nat} {p : Payload},
      generate_payload_go year ρ defn i = .ok p →
      ∀ k ∈ p.map Prod.fst, ∃ d j v,
        (k, d) ∈ defn ∧ skip_guard k d = false ∧
        dispatch_attribute d year (ρ j) = .ok (some v) := by
  intro defn
  induction defn with
  | nil =>
    intro i p h k hk
    simp only [generate_payload_go] at h
    cases h
    simp at hk
  | cons hd rest ih =>
    intro i p h k hk
    obtain ⟨name, d⟩ := hd
    simp only [generate_payload_go] at h
    by_cases hs : skip_guard name d
    · rw [if_pos hs] at h
      obtain ⟨d', j, v, hmem, hsk, hd⟩ := ih h k hk
      exact ⟨d', j, v, List.mem_cons_of_mem _ hmem, hsk, hd⟩
    · rw [if_neg hs] at h
      cases hdisp : dispatch_attribute d year (ρ i) with
      | error e => rw [hdisp] at h; cases h
      | ok v =>
        rw [hdisp] at h
        cases htail : generate_payload_go year ρ rest (i + 1) with
        | error e => rw [htail] at h; cases h
        | ok tail =>
          rw [htail] at h
          cases v with
          | none =>
            cases h
            obtain ⟨d', j, v', hmem, hsk, hd⟩ := ih htail k hk
            exact ⟨d', j, v', List.mem_cons_of_mem _ hmem, hsk, hd⟩
          | some v =>
            cases h
            rw [List.map_cons, List.mem_cons] at hk
            rcases hk with rfl | hk
            · exact ⟨d, i, v, List.mem_cons_self _ _, by simpa using hs, hdisp⟩
            · obtain ⟨d', j, v', hmem, hsk, hd⟩ := ih htail k hk
              exact ⟨d', j, v', List.mem_cons_of_mem _ hmem, hsk, hd⟩

theorem generate_payload_go_mem {year : Int} {ρ : Nat → Nat → Nat} :
    ∀ {defn : List (String × Descriptor)} {i : Nat} {p : Payload}
      {name : String} {d : Descriptor},
      generate_payload_go year ρ defn i = .ok p →
      (name, d) ∈ defn → skip_guard name d = false →
      (∀ r, ∃ v, dispatch_attribute d year r = .ok (some v)) →
      name ∈ p.map Prod.fst := by
  intro defn
  induction defn with
  | nil => intro i p name d _ hmem; simp at hmem
  | cons hd rest ih =>
    intro i p name d h hmem hskip hdisp
    obtain ⟨n0, d0⟩ := hd
    simp only [generate_payload_go] at h
    by_cases hs : skip_guard n0 d0
    · rw [if_pos hs] at h
      have hmem' : (name, d) ∈ rest := by
        rcases List.mem_cons.mp hmem with heq | hmem'
        · exfalso
          obtain ⟨h1, h2⟩ := Prod.mk.injEq .. ▸ heq
          rw [← h1, ← h2] at hs
          rw [hskip] at hs
          cases hs
        · exact hmem'
      exact ih h hmem' hskip hdisp
    · rw [if_neg hs] at h
      cases hdisp0 : dispatch_attribute d0 year (ρ i) with
      | error e => rw [hdisp0] at h; cases h
      | ok v0 =>
        rw [hdisp0] at h
        cases htail : generate_payload_go year ρ rest (i + 1) with
        | error e => rw [htail] at h; cases h
        | ok tail =>
          rw [htail] at h
          rcases List.mem_cons.mp hmem with heq | hmem'
          · obtain ⟨h1, h2⟩ := Prod.mk.injEq .. ▸ heq
            subst h1
            obtain ⟨v, hv⟩ := hdisp (ρ i)
            rw [← h2] at hdisp0
            rw [hdisp0] at hv
            cases hv
            cases h
            simp
          · have htailmem : name ∈ tail.map Prod.fst := ih htail hmem' hskip hdisp
            cases v0 with
            | none => cases h; exact htailmem
            | some w =>
              cases h
              rw [List.map_cons, List.mem_cons]
              exact Or.inr htailmem

/-! ## Helper lemmas about the association resolver -/

theorem resolve_attribute_model {mapped : List (String × List Record)}
    {mn : String} {rid : Int} {a : Attribute} {σ : Nat → Nat} {pos : Nat}
    {target : String} {peers : List Record} {us : List Update} {pos' : Nat}
    (hm : truthyVal a.model = some target)
    (hl : lookup_assoc mapped target = some peers)
    (h : resolve_attribute mapped mn rid (.full a) σ pos = .ok (us, pos')) :
    ∃ peer ∈ peers, us = [⟨mn, rid, target, .one peer.id⟩] := by
  unfold resolve_attribute at h
  dsimp only at h
  rw [hm] at h
  dsimp only at h
  rw [hl] at h
  dsimp only at h
  cases hp : pick peers (σ pos) with
  | none => rw [hp] at h; cases h
  | some peer =>
    rw [hp] at h
    dsimp only at h
    cases h
    exact ⟨peer, pick_mem hp, rfl⟩

theorem resolve_attribute_collection {mapped : List (String × List Record)}
    {mn : String} {rid : Int} {a : Attribute} {σ : Nat → Nat} {pos : Nat}
    {target : String} {peers : List Record} {us : List Update} {pos' : Nat}
    (hm : truthyVal a.model = none)
    (hc : truthyVal a.collection = some target)
    (hl : lookup_assoc mapped target = some peers)
    (h : resolve_attribute mapped mn rid (.full a) σ pos = .ok (us, pos')) :
    ∃ ids, us = [⟨mn, rid, target, .many ids⟩] ∧ ids.length = 3 ∧
      ∀ x ∈ ids, ∃ p ∈ peers, x = p.id := by
  unfold resolve_attribute at h
  dsimp only at h
  rw [hm] at h
  dsimp only at h
  rw [hc] at h
  dsimp only at h
  rw [hl] at h
  dsimp only at h
  cases hp1 : pick peers (σ pos) with
  | none => rw [hp1] at h; cases h
  | some p1 =>
    rw [hp1] at h
    cases hp2 : pick peers (σ (pos + 1)) with
    | none => rw [hp2] at h; cases h
    | some p2 =>
      rw [hp2] at h
      cases hp3 : pick peers (σ (pos + 2)) with
      | none => rw [hp3] at h; cases h
      | some p3 =>
        rw [hp3] at h
        dsimp only at h
        cases h
        refine ⟨[p1.id, p2.id, p3.id], rfl, rfl, ?_⟩
        intro x hx
        simp only [List.mem_cons, List.not_mem_nil, or_false] at hx
        rcases hx with rfl | rfl | rfl
        · exact ⟨p1, pick_mem hp1, rfl⟩
        · exact ⟨p2, pick_mem hp2, rfl⟩
        · exact ⟨p3, pick_mem hp3, rfl⟩

theorem resolve_attributes_chunk {mapped : List (String × List Record)}
    {mn : String} {rid : Int} {σ : Nat → Nat} (P : Update → Prop)
    {attrName : String} {a : Attribute}
    (hone : ∀ pos pos' us, resolve_attribute mapped mn rid (.full a) σ pos =
      .ok (us, pos') → ∃ u ∈ us, P u) :
    ∀ {attrs : List (String × Descriptor)} {pos : Nat} {us : List Update}
      {pos' : Nat},
      resolve_attributes mapped mn rid attrs σ pos = .ok (us, pos') →
      (attrName, .full a) ∈ attrs →
      ∃ u ∈ us, P u := by
  intro attrs
  induction attrs with
  | nil => intro pos us pos' _ hmem; simp at hmem
  | cons hd rest ih =>
    intro pos us pos' h hmem
    obtain ⟨n0, d0⟩ := hd
    simp only [resolve_attributes] at h
    cases h0 : resolve_attribute mapped mn rid d0 σ pos with
    | error e => rw [h0] at h; cases h
    | ok r0 =>
      obtain ⟨us0, pos0⟩ := r0
      rw [h0] at h
      dsimp only at h
      cases h1 : resolve_attributes mapped mn rid rest σ pos0 with
      | error e => rw [h1] at h; cases h
      | ok r1 =>
        obtain ⟨us1, pos1⟩ := r1
        rw [h1] at h
        dsimp only at h
        cases h
        rcases List.mem_cons.mp hmem with heq | hmem'
        · obtain ⟨he1, he2⟩ := Prod.mk.injEq .. ▸ heq
          rw [← he2] at h0
          obtain ⟨u, hu, hP⟩ := hone pos pos0 us0 h0
          exact ⟨u, List.mem_append_left _ hu, hP⟩
        · obtain ⟨u, hu, hP⟩ := ih h1 hmem'
          exact ⟨u, List.mem_append_right _ hu, hP⟩

theorem resolve_records_chunk {mapped : List (String × List Record)}
    {mn : String} {attrs : List (String × Descriptor)} {σ : Nat → Nat}
    (P : Update → Prop) {rec : Record}
    (hone : ∀ pos pos' us, resolve_attributes mapped mn rec.id attrs σ pos =
      .ok (us, pos') → ∃ u ∈ us, P u) :
    ∀ {recs : List Record} {pos : Nat} {us : List Update} {pos' : Nat},
      resolve_records mapped mn attrs recs σ pos = .ok (us, pos') →
      rec ∈ recs →
      ∃ u ∈ us, P u := by
  intro recs
  induction recs with
  | nil => intro pos us pos' _ hmem; simp at hmem
  | cons hd rest ih =>
    intro pos us pos' h hmem
    simp only [resolve_records] at h
    cases h0 : resolve_attributes mapped mn hd.id attrs σ pos with
    | error e => rw [h0] at h; cases h
    | ok r0 =>
      obtain ⟨us0, pos0⟩ := r0
      rw [h0] at h
      dsimp only at h
      cases h1 : resolve_records mapped mn attrs rest σ pos0 with
      | error e => rw [h1] at h; cases h
      | ok r1 =>
        obtain ⟨us1, pos1⟩ := r1
        rw [h1] at h
        dsimp only at h
        cases h
        rcases List.mem_cons.mp hmem with heq | hmem'
        · subst heq
          obtain ⟨u, hu, hP⟩ := hone pos pos0 us0 h0
          exact ⟨u, List.mem_append_left _ hu, hP⟩
        · obtain ⟨u, hu, hP⟩ := ih h1 hmem'
          exact ⟨u, List.mem_append_right _ hu, hP⟩

theorem resolve_models_chunk {mapped : List (String × List Record)}
    {σ : Nat → Nat} (P : Update → Prop) {A : String} {modelA : Model}
    {recsA : List Record}
    (hj : modelA.junctionTable = false)
    (hrecs : lookup_assoc mapped A = some recsA)
    (hone : ∀ pos pos' us,
      resolve_records mapped A modelA.attributes recsA σ pos =
        .ok (us, pos') → ∃ u ∈ us, P u) :
    ∀ {models : List (String × Model)} {pos : Nat} {us : List Update}
      {pos' : Nat},
      resolve_models mapped models σ pos = .ok (us, pos') →
      (A, modelA) ∈ models →
      ∃ u ∈ us, P u := by
  intro models
  induction models with
  | nil => intro pos us pos' _ hmem; simp at hmem
  | cons hd rest ih =>
    intro pos us pos' h hmem
    obtain ⟨n0, m0⟩ := hd
    simp only [resolve_models] at h
    rcases List.mem_cons.mp hmem with heq | hmem'
    · obtain ⟨he1, he2⟩ := Prod.mk.injEq .. ▸ heq
      subst he1
      subst he2
      rw [if_neg (by simp [hj])] at h
      rw [hrecs] at h
      dsimp only at h
      cases h0 : resolve_records mapped A modelA.attributes recsA σ pos with
      | error e => rw [h0] at h; cases h
      | ok r0 =>
        obtain ⟨us0, pos0⟩ := r0
        rw [h0] at h
        dsimp only at h
        cases h1 : resolve_models mapped rest σ pos0 with
        | error e => rw [h1] at h; cases h
        | ok r1 =>
          obtain ⟨us1, pos1⟩ := r1
          rw [h1] at h
          dsimp only at h
          cases h
          obtain ⟨u, hu, hP⟩ := hone pos pos0 us0 h0
          exact ⟨u, List.mem_append_left _ hu, hP⟩
    · by_cases hju : m0.junctionTable
      · rw [if_pos hju] at h
        exact ih h hmem'
      · rw [if_neg hju] at h
        cases hl0 : lookup_assoc mapped n0 with
        | none => rw [hl0] at h; cases h
        | some recs0 =>
          rw [hl0] at h
          dsimp only at h
          cases h0 : resolve_records mapped n0 m0.attributes recs0 σ pos with
          | error e => rw [h0] at h; cases h
          | ok r0 =>
            obtain ⟨us0, pos0⟩ := r0
            rw [h0] at h
            dsimp only at h
            cases h1 : resolve_models mapped rest σ pos0 with
            | error e => rw [h1] at h; cases h
            | ok r1 =>
              obtain ⟨us1, pos1⟩ := r1
              rw [h1] at h
              dsimp only at h
              cases h
              obtain ⟨u, hu, hP⟩ := ih h1 hmem'
              exact ⟨u, List.mem_append_right _ hu, hP⟩

/-! ## Helper lemmas about the orchestrator -/

theorem run_tasks_error_of_mem
    {cr : String → List Payload → Except String (List Record)} :
    ∀ {batches : List (String × List Payload)} {b : String × List Payload},
      b ∈ batches → (cr b.1 b.2).toOption = none →
      ∃ e, run_tasks batches cr = .error e := by
  intro batches
  induction batches with
  | nil => intro b hb; simp at hb
  | cons hd rest ih =>
    intro b hb herr
    obtain ⟨mn, ps⟩ := hd
    simp only [run_tasks]
    cases hc : cr mn ps with
    | error e => exact ⟨e, rfl⟩
    | ok recs =>
      rcases List.mem_cons.mp hb with heq | hmem
      · exfalso
        rw [heq] at herr
        dsimp only at herr
        rw [hc] at herr
        simp [Except.toOption] at herr
      · obtain ⟨e, he⟩ := ih hmem herr
        refine ⟨e, ?_⟩
        dsimp only
        rw [he]

theorem run_tasks_ok_of_forall
    {cr : String → List Payload → Except String (List Record)} :
    ∀ {batches : List (String × List Payload)},
      (∀ b ∈ batches, (cr b.1 b.2).toOption ≠ none) →
      ∃ created, run_tasks batches cr = .ok created := by
  intro batches
  induction batches with
  | nil => intro _; exact ⟨[], rfl⟩
  | cons hd rest ih =>
    intro hall
    obtain ⟨mn, ps⟩ := hd
    obtain ⟨tail, htail⟩ := ih (fun b hb => hall b (List.mem_cons_of_mem _ hb))
    cases hc : cr mn ps with
    | error e =>
      exfalso
      have hmem := hall (mn, ps) (List.mem_cons_self _ _)
      dsimp only at hmem
      rw [hc] at hmem
      exact hmem rfl
    | ok recs =>
      refine ⟨(mn, recs) :: tail, ?_⟩
      simp only [run_tasks]
      rw [hc]
      dsimp only
      rw [htail]

/-! ## Claim theorems -/

/-- C1, corrected.  `generate_number` consults neither `size` nor the
declared numeric type name when fixing its bounds: for every descriptor
the bounds are `min ?? -(2^53 - 1)` and `max ?? 2^53 - 1` (plus/minus
`Number.MAX_SAFE_INTEGER`), and whenever those bounds are ordered the
generated value, in the integer branch and in the float branch alike,
lies between them. -/
theorem C1_theorem (a : Attribute) (c : Nat)
    (h : a.min.getD (-(2 ^ 53 - 1)) ≤ a.max.getD (2 ^ 53 - 1)) :
    ((a.min.getD (-(2 ^ 53 - 1)) : Int) : ℚ) ≤ generate_number a c ∧
    generate_number a c ≤ ((a.max.getD (2 ^ 53 - 1) : Int) : ℚ) := by
  unfold generate_number
  dsimp only
  split
  · exact random_real_mem _ _ c h
  · obtain ⟨h1, h2⟩ := random_integer_mem _ _ c h
    constructor
    · exact_mod_cast h1
    · exact_mod_cast h2

/-- C1 witness: a descriptor with `min = 18`, `max = 65` generates
within `[18, 65]`. -/
theorem C1_witness :
    ((18 : Int) : ℚ) ≤ generate_number { min := some 18, max := some 65 } 5 ∧
    generate_number { min := some 18, max := some 65 } 5 ≤ ((65 : Int) : ℚ) :=
  C1_theorem { min := some 18, max := some 65 } 5 (by decide)

/-- C1 counterexample: a descriptor declaring `size = 8` and type
`smallint`, with no explicit `min`/`max`, can generate 40000 — outside
the safe range `[-32767, 32767]` the claim derives from `size`/`type`. -/
theorem C1_counterexample :
    generate_number { type := some "smallint", size := some 8 }
      9007199254780991 = (40000 : ℚ) ∧
    ¬(generate_number { type := some "smallint", size := some 8 }
      9007199254780991 ≤ (32767 : ℚ)) := by
  constructor
  · decide
  · decide

/-- C2, corrected.  For a to-one relation attribute (truthy `model` flag
naming model `B`), a successful resolver run issues, for every created
record of model `A`, an update selecting that record by its identifier
whose patch key is the referenced model's name `B` — not the attribute's
own name — and whose value is the identifier of one randomly picked
created `B` record. -/
theorem C2_theorem
    (models : List (String × Model)) (created : List (String × List Record))
    (σ : Nat → Nat) (A B attrName : String) (modelA : Model) (a : Attribute)
    (recsA peersB : List Record) (rec : Record) (out : List Update)
    (hA : (A, modelA) ∈ models) (hj : modelA.junctionTable = false)
    (hattr : (attrName, .full a) ∈ modelA.attributes)
    (hm : truthyVal a.model = some B)
    (hrecs : lookup_assoc created A = some recsA) (hrec : rec ∈ recsA)
    (hpeers : lookup_assoc created B = some peersB)
    (hok : resolve_and_make_associations created models σ = .ok out) :
    ∃ u ∈ out, ∃ peer ∈ peersB, u = ⟨A, rec.id, B, .one peer.id⟩ := by
  unfold resolve_and_make_associations at hok
  cases hres : resolve_models created models σ 0 with
  | error e => rw [hres] at hok; cases hok
  | ok r =>
    obtain ⟨us, posEnd⟩ := r
    rw [hres] at hok
    dsimp only at hok
    cases hok
    refine resolve_models_chunk
      (fun u => ∃ peer ∈ peersB, u = ⟨A, rec.id, B, .one peer.id⟩)
      hj hrecs ?_ hres hA
    intro pos pos' us1 h1
    refine resolve_records_chunk _ ?_ h1 hrec
    intro pos2 pos2' us2 h2
    refine resolve_attributes_chunk _ ?_ h2 hattr
    intro pos3 pos3' us3 h3
    obtain ⟨peer, hpm, hu⟩ := resolve_attribute_model hm hpeers h3
    subst hu
    exact ⟨_, List.mem_singleton_self _, peer, hpm, rfl⟩

/-- Concrete two-model schema for exercising C2: model `alpha` has a
to-one relation attribute named `owner` referencing model `beta`. -/
def c2_models : List (String × Model) :=
  [("alpha", ⟨false,
    [("owner", .full { type := some "integer", model := some "beta" })]⟩),
   ("beta", ⟨false, []⟩)]

/-- Concrete created-record sets for the C2 schema. -/
def c2_created : List (String × List Record) :=
  [("alpha", [⟨1⟩]), ("beta", [⟨7⟩])]

/-- C2 witness: on the concrete schema the issued update targets record 1
of `alpha` and carries the identifier of the single created `beta`
record. -/
theorem C2_witness :
    ∃ u ∈ [(⟨"alpha", 1, "beta", UpdateVal.one 7⟩ : Update)],
      ∃ peer ∈ [(⟨7⟩ : Record)],
        u = ⟨"alpha", (1 : Int), "beta", .one peer.id⟩ :=
  C2_theorem c2_models c2_created (fun _ => 0) "alpha" "beta" "owner"
    ⟨false, [("owner", .full { type := some "integer", model := some "beta" })]⟩
    { type := some "integer", model := some "beta" }
    [⟨1⟩] [⟨7⟩] ⟨1⟩ [⟨"alpha", 1, "beta", .one 7⟩]
    (by decide) rfl (by decide) rfl rfl (by decide) rfl rfl

/-- C2 counterexample: the attribute is named `owner` but the single
issued update's patch key is `beta`, the referenced model's name — the
claim's "the attribute under its own name" fails. -/
theorem C2_counterexample :
    resolve_and_make_associations c2_created c2_models (fun _ => 0) =
      .ok [⟨"alpha", 1, "beta", .one 7⟩] ∧
    (⟨"alpha", 1, "beta", .one 7⟩ : Update).key ≠ "owner" := by
  constructor
  · rfl
  · decide

/-- C3, corrected.  For a to-many relation attribute (truthy
`collection` flag naming model `B`, no truthy `model` flag), a successful
resolver run issues, for every created record of the owning model, an
update keyed by the referenced model's name `B` (the value of the
attribute's `collection` key, not the attribute's own name) whose patch
value is an ordered list of exactly three identifiers, each belonging to
some created `B` record (three independent picks with replacement, so
duplicates are possible). -/
theorem C3_theorem
    (models : List (String × Model)) (created : List (String × List Record))
    (σ : Nat → Nat) (A B attrName : String) (modelA : Model) (a : Attribute)
    (recsA peersB : List Record) (rec : Record) (out : List Update)
    (hA : (A, modelA) ∈ models) (hj : modelA.junctionTable = false)
    (hattr : (attrName, .full a) ∈ modelA.attributes)
    (hm : truthyVal a.model = none)
    (hc : truthyVal a.collection = some B)
    (hrecs : lookup_assoc created A = some recsA) (hrec : rec ∈ recsA)
    (hpeers : lookup_assoc created B = some peersB)
    (hok : resolve_and_make_associations created models σ = .ok out) :
    ∃ u ∈ out, ∃ ids, u = ⟨A, rec.id, B, .many ids⟩ ∧ ids.length = 3 ∧
      ∀ x ∈ ids, ∃ p ∈ peersB, x = p.id := by
  unfold resolve_and_make_associations at hok
  cases hres : resolve_models created models σ 0 with
  | error e => rw [hres] at hok; cases hok
  | ok r =>
    obtain ⟨us, posEnd⟩ := r
    rw [hres] at hok
    dsimp only at hok
    cases hok
    refine resolve_models_chunk
      (fun u => ∃ ids, u = ⟨A, rec.id, B, .many ids⟩ ∧ ids.length = 3 ∧
        ∀ x ∈ ids, ∃ p ∈ peersB, x = p.id)
      hj hrecs ?_ hres hA
    intro pos pos' us1 h1
    refine resolve_records_chunk _ ?_ h1 hrec
    intro pos2 pos2' us2 h2
    refine resolve_attributes_chunk _ ?_ h2 hattr
    intro pos3 pos3' us3 h3
    obtain ⟨ids, hu, hlen, hmem3⟩ := resolve_attribute_collection hm hc hpeers h3
    subst hu
    exact ⟨_, List.mem_singleton_self _, ids, rfl, hlen, hmem3⟩

/-- Concrete two-model schema for exercising C3: model `post` has a
to-many relation attribute named `tags` referencing model `tag`. -/
def c3_models : List (String × Model) :=
  [("post", ⟨false,
    [("tags", .full { type := some "integer", collection := some "tag" })]⟩),
   ("tag", ⟨false, []⟩)]

/-- Concrete created-record sets for the C3 schema. -/
def c3_created : List (String × List Record) :=
  [("post", [⟨1⟩]), ("tag", [⟨5⟩, ⟨6⟩])]

/-- C3 witness: on the concrete schema the issued update carries exactly
three identifiers of created `tag` records — and the identity choice
stream yields `[5, 6, 5]`, exhibiting a with-replacement duplicate. -/
theorem C3_witness :
    ∃ u ∈ [(⟨"post", 1, "tag", UpdateVal.many [5, 6, 5]⟩ : Update)],
      ∃ ids, u = ⟨"post", (1 : Int), "tag", .many ids⟩ ∧ ids.length = 3 ∧
        ∀ x ∈ ids, ∃ p ∈ [(⟨5⟩ : Record), ⟨6⟩], x = p.id :=
  C3_theorem c3_models c3_created (fun i => i) "post" "tag" "tags"
    ⟨false, [("tags", .full { type := some "integer", collection := some "tag" })]⟩
    { type := some "integer", collection := some "tag" }
    [⟨1⟩] [⟨5⟩, ⟨6⟩] ⟨1⟩ [⟨"post", 1, "tag", .many [5, 6, 5]⟩]
    (by decide) rfl (by decide) rfl rfl rfl (by decide) rfl rfl

/-- C3 counterexample: the relation attribute is named `tags` but the
single issued update's patch key is `tag`, the referenced model's name —
the update does not set the attribute under its own name. -/
theorem C3_counterexample :
    resolve_and_make_associations c3_created c3_models (fun i => i) =
      .ok [⟨"post", 1, "tag", .many [5, 6, 5]⟩] ∧
    (⟨"post", 1, "tag", .many [5, 6, 5]⟩ : Update).key ≠ "tags" := by
  constructor
  · rfl
  · decide

/-- C4, corrected.  Bare-string descriptor shorthand is not supported by
the payload builder: for a non-skipped attribute given as the bare string
`"string"`, the builder reads `.type` off the raw string value
(`undefined`) and throws, so building the payload fails. -/
theorem C4_counterexample :
    (generate_payload_from_definition [("name", .shorthand "string")] 2026
      (fun _ _ => 0)).toOption = none := rfl

/-- C4, corrected (amended theorem): payload generation completes without
error whenever every attribute of the definition either falls under the
skip guard (truthy relation flag, or name `id`/`_id`) or is a full object
descriptor that has a `type` string and keeps its dispatched generator
in-domain — non-empty `enum` when present for string/email, ordered
effective `min`/`max` bounds for a non-primary-key integer/float
(the library raises a RangeError on an inverted range), ordered effective
date bounds for date/time/datetime. -/
theorem C4_theorem (defn : List (String × Descriptor)) (year : Int)
    (ρ : Nat → Nat → Nat) (hwf : ∀ q ∈ defn, wf_descriptor year q.1 q.2 = true) :
    ∃ p, generate_payload_from_definition defn year ρ = .ok p :=
  generate_payload_go_ok hwf 0

/-- C4 witness: a well-formed two-attribute definition builds
successfully. -/
theorem C4_witness :
    ∃ p, generate_payload_from_definition
      [("id", .full { type := some "integer", primaryKey := true }),
       ("name", .full { type := some "string" })] 2026 (fun _ _ => 0) =
      .ok p :=
  C4_theorem _ 2026 (fun _ _ => 0) (by decide)

/-- C5, corrected.  A descriptor whose `model` (or `collection`) key
holds the empty string carries a relation key but is falsy in the skip
guard, so the payload builder still generates a value for it: the claim
fails for `{rel: {model: "", type: "boolean"}}`. -/
theorem C5_counterexample :
    generate_payload_from_definition
      [("rel", .full { type := some "boolean", model := some "" })] 2026
      (fun _ _ => 0) = .ok [("rel", .bool false)] ∧
    ({ type := some "boolean", model := some "" } : Attribute).model.isSome =
      true := by
  constructor
  · rfl
  · rfl

/-- C5, corrected (amended theorem): a successfully built payload never
contains a key named `id` or `_id`, nor a key whose descriptor carries a
truthy (present and non-empty) `model` or `collection` value, provided
the definition's attribute names are distinct (as JavaScript object keys
always are). -/
theorem C5_theorem (defn : List (String × Descriptor)) (year : Int)
    (ρ : Nat → Nat → Nat) (p : Payload)
    (hnd : (defn.map Prod.fst).Nodup)
    (h : generate_payload_from_definition defn year ρ = .ok p) :
    (∀ k ∈ p.map Prod.fst, k ≠ "id" ∧ k ≠ "_id") ∧
    (∀ name a, (name, .full a) ∈ defn →
      (truthyStr a.model || truthyStr a.collection) = true →
      name ∉ p.map Prod.fst) := by
  constructor
  · intro k hk
    obtain ⟨d, j, v, hmem, hsk, _⟩ := generate_payload_go_keys h k hk
    unfold skip_guard at hsk
    simp only [Bool.or_eq_false_iff, beq_eq_false_iff_ne] at hsk
    exact ⟨hsk.1.2, hsk.2⟩
  · intro name a hmem htruthy hkmem
    obtain ⟨d', j, v, hmem', hsk, _⟩ := generate_payload_go_keys h name hkmem
    have hd' : d' = .full a := assoc_nodup_unique hnd hmem' hmem
    subst hd'
    unfold skip_guard at hsk
    dsimp only at hsk
    rw [htruthy] at hsk
    simp at hsk

/-- C5 witness: a definition with a primary-key `id` attribute, a plain
attribute, and a relation attribute yields a payload without the `id` key
and without the relation key. -/
theorem C5_witness :
    (∀ k ∈ ([("flag", Value.bool false)] : Payload).map Prod.fst,
      k ≠ "id" ∧ k ≠ "_id") ∧
    (∀ name a, (name, .full a) ∈
        ([("id", .full { type := some "integer", primaryKey := true }),
          ("flag", .full { type := some "boolean" }),
          ("owner", .full { type := some "integer", model := some "beta2" })] :
          List (String × Descriptor)) →
      (truthyStr a.model || truthyStr a.collection) = true →
      name ∉ ([("flag", Value.bool false)] : Payload).map Prod.fst) :=
  C5_theorem
    [("id", .full { type := some "integer", primaryKey := true }),
     ("flag", .full { type := some "boolean" }),
     ("owner", .full { type := some "integer", model := some "beta2" })]
    2026 (fun _ _ => 0) [("flag", .bool false)] (by decide) rfl

/-- C6, corrected.  The date generator's default bounds are
`new Date(year - 10, 1, 1)` and `new Date(year + 10, 12, 31)`, which —
JavaScript months being 0-based and month 12 overflowing into the next
year — are February 1 of (year − 10) and January 31 of (year + 11), not
January 1 / December 31 as claimed; supplied `before`/`after` callables
override the respective default, and the drawn date lies between the
effective bounds (in timestamp order) whenever they are ordered. -/
theorem C6_theorem (a : Attribute) (year : Int) (c : Nat)
    (h : dateCode (a.before.getD (mkJSDate (year - 10) 1 1)) ≤
      dateCode (a.after.getD (mkJSDate (year + 10) 12 31))) :
    (dateCode (a.before.getD (mkJSDate (year - 10) 1 1)) ≤
        dateCode (generate_date a year c) ∧
      dateCode (generate_date a year c) ≤
        dateCode (a.after.getD (mkJSDate (year + 10) 12 31))) ∧
    mkJSDate (year - 10) 1 1 = ⟨year - 10, 1, 1⟩ ∧
    mkJSDate (year + 10) 12 31 = ⟨year + 11, 0, 31⟩ := by
  refine ⟨?_, ?_, ?_⟩
  · unfold generate_date random_date
    dsimp only
    rw [dateCode_dateFromCode]
    exact random_integer_mem _ _ c h
  · unfold mkJSDate
    rw [JSDate.mk.injEq]
    refine ⟨?_, ?_, rfl⟩
    · rw [show (1 : Int).ediv 12 = 0 from rfl]
      ring
    · rfl
  · unfold mkJSDate
    rw [JSDate.mk.injEq]
    refine ⟨?_, ?_, rfl⟩
    · rw [show (12 : Int).ediv 12 = 1 from rfl]
      ring
    · rfl

/-- C6 witness: with no `before`/`after` callables and current year 2026,
the drawn date lies between February 1, 2016 and January 31, 2037. -/
theorem C6_witness :
    (dateCode (({} : Attribute).before.getD (mkJSDate (2026 - 10) 1 1)) ≤
        dateCode (generate_date {} 2026 0) ∧
      dateCode (generate_date {} 2026 0) ≤
        dateCode (({} : Attribute).after.getD (mkJSDate (2026 + 10) 12 31))) ∧
    mkJSDate (2026 - 10) 1 1 = ⟨2026 - 10, 1, 1⟩ ∧
    mkJSDate (2026 + 10) 12 31 = ⟨2026 + 11, 0, 31⟩ :=
  C6_theorem {} 2026 0 (by decide)

/-- C6 counterexample: with current year 2026 and no `before`/`after`
callables, the generator can draw January 31, 2037 — strictly after the
claimed upper bound December 31, 2036. -/
theorem C6_counterexample :
    generate_date {} 2026 7811 = ⟨2037, 0, 31⟩ ∧
    ¬(dateCode ⟨2037, 0, 31⟩ ≤ dateCode ⟨2036, 11, 31⟩) := by
  constructor
  · decide
  · decide

/-- C7, confirmed.  For a string descriptor with a non-empty `enum`, the
string generator returns a member of the enum list regardless of length
bounds or email/url/urlish flags (the enum check precedes every other
shape check), and every member of the list is attainable under some
choice of randomness. -/
theorem C7_theorem (a : Attribute) (r : Nat → Nat) (l : List String)
    (he : a.enum = some l) (hne : l ≠ []) :
    (∃ v, generate_string a r = .ok v ∧ v ∈ l) ∧
    (∀ v ∈ l, ∃ r2, generate_string a r2 = .ok v) := by
  constructor
  · obtain ⟨x, hx, hxl⟩ := pick_ne_nil l (r 0) hne
    refine ⟨x, ?_, hxl⟩
    unfold generate_string
    dsimp only
    rw [he]
    dsimp only
    rw [hx]
  · intro v hv
    obtain ⟨c, hc⟩ := pick_total hv
    refine ⟨fun _ => c, ?_⟩
    unfold generate_string
    dsimp only
    rw [he]
    dsimp only
    rw [hc]

/-- C7 witness: a descriptor with enum `["x", "y", "z"]`, length bounds
and an email flag still yields an enum member, and each member is
attainable. -/
theorem C7_witness :
    (∃ v, generate_string
        { enum := some ["x", "y", "z"], email := true,
          minLength := some 1, maxLength := some 2 } (fun _ => 4) = .ok v ∧
      v ∈ ["x", "y", "z"]) ∧
    (∀ v ∈ ["x", "y", "z"], ∃ r2, generate_string
        { enum := some ["x", "y", "z"], email := true,
          minLength := some 1, maxLength := some 2 } r2 = .ok v) :=
  C7_theorem _ _ ["x", "y", "z"] rfl (by decide)

/-- C8, confirmed.  An attribute whose descriptor's lower-cased `type`
matches none of the recognized domains is silently omitted: the payload
builds successfully — given the rest of the definition is well formed in
the `wf_descriptor` sense (so no sibling generator can throw) and names
are distinct — and the attribute's name is absent from it. -/
theorem C8_theorem (defn : List (String × Descriptor)) (year : Int)
    (ρ : Nat → Nat → Nat) (name t : String) (a : Attribute)
    (hnd : (defn.map Prod.fst).Nodup)
    (hwf : ∀ q ∈ defn, wf_descriptor year q.1 q.2 = true)
    (hmem : (name, .full a) ∈ defn)
    (ht : a.type = some t)
    (hur : recognized_type (toLowerStr t) = false) :
    ∃ p, generate_payload_from_definition defn year ρ = .ok p ∧
      name ∉ p.map Prod.fst := by
  obtain ⟨p, hp⟩ := @generate_payload_go_ok year ρ defn hwf 0
  refine ⟨p, hp, ?_⟩
  intro hk
  obtain ⟨d', j, v, hmem', hsk, hd⟩ := generate_payload_go_keys hp name hk
  have hd' : d' = .full a := assoc_nodup_unique hnd hmem' hmem
  subst hd'
  rw [dispatch_attribute_unrecognized a t year (ρ j) ht hur] at hd
  simp at hd

/-- C8 witness: an attribute of unrecognized type `json` next to a
recognized `boolean` attribute is simply absent from the successfully
built payload. -/
theorem C8_witness :
    ∃ p, generate_payload_from_definition
        [("blob", .full { type := some "json" }),
         ("flag", .full { type := some "boolean" })] 2026 (fun _ _ => 0) =
      .ok p ∧ "blob" ∉ p.map Prod.fst :=
  C8_theorem _ 2026 (fun _ _ => 0) "blob" "json" { type := some "json" }
    (by decide) (by decide) (by decide) rfl (by decide)

/-- C9, confirmed.  Once the payload batches are built, if any model's
create task fails the run reports the error, never invokes association
resolution, and issues no update (and the embedding contains no rollback
operation at all, so sibling creations stand); if every create task
succeeds, association resolution is invoked. -/
theorem C9_theorem (models : List (String × Model)) (iterations : Nat)
    (year : Int) (ρ : String → Nat → Nat → Nat → Nat)
    (cr : String → List Payload → Except String (List Record))
    (σ : Nat → Nat) (batches : List (String × List Payload))
    (hb : build_batches models iterations year ρ = .ok batches) :
    ((∃ b ∈ batches, (cr b.1 b.2).toOption = none) →
      seed_run models iterations year ρ cr σ = .ok ⟨true, false, []⟩) ∧
    ((∀ b ∈ batches, (cr b.1 b.2).toOption ≠ none) →
      ∃ created, run_tasks batches cr = .ok created ∧
        ∃ out, seed_run models iterations year ρ cr σ = .ok out ∧
          out.create_error = false ∧ out.resolver_invoked = true) := by
  constructor
  · rintro ⟨b, hbm, herr⟩
    obtain ⟨e, he⟩ := run_tasks_error_of_mem hbm herr
    unfold seed_run
    rw [hb]
    dsimp only
    rw [he]
  · intro hall
    obtain ⟨created, hcreated⟩ := run_tasks_ok_of_forall hall
    refine ⟨created, hcreated, ?_⟩
    unfold seed_run
    rw [hb]
    dsimp only
    rw [hcreated]
    dsimp only
    cases resolve_and_make_associations created models σ with
    | ok us => exact ⟨⟨false, true, us⟩, rfl, rfl, rfl⟩
    | error e => exact ⟨⟨false, true, []⟩, rfl, rfl, rfl⟩

/-- Concrete one-model schema for exercising C9. -/
def c9_models : List (String × Model) :=
  [("gamma", ⟨false, [("flag", .full { type := some "boolean" })]⟩)]

/-- C9 witness: when the single create task fails, the run reports the
failure and issues no updates. -/
theorem C9_witness :
    seed_run c9_models 1 2026 (fun _ _ _ _ => 0) (fun _ _ => .error "boom")
      (fun _ => 0) = .ok ⟨true, false, []⟩ :=
  (C9_theorem c9_models 1 2026 (fun _ _ _ _ => 0)
      (fun _ _ => .error "boom") (fun _ => 0)
      [("gamma", [[("flag", .bool false)]])] rfl).1
    ⟨("gamma", [[("flag", .bool false)]]), by decide, rfl⟩

/-- C10, confirmed.  The primary-key skip lives only in the
integer/float branch: a string- or email-typed attribute with
`primaryKey: true` (and a name other than `id`/`_id`, not a relation)
still gets a generated value in the payload, the whole build succeeding
under `wf_descriptor` well-formedness of the definition. -/
theorem C10_theorem (defn : List (String × Descriptor)) (year : Int)
    (ρ : Nat → Nat → Nat) (name t : String) (a : Attribute)
    (hwf : ∀ q ∈ defn, wf_descriptor year q.1 q.2 = true)
    (hmem : (name, .full a) ∈ defn)
    (ht : a.type = some t)
    (hstr : toLowerStr t = "string" ∨ toLowerStr t = "email")
    (hpk : a.primaryKey = true)
    (hsk : skip_guard name (.full a) = false) :
    ∃ p, generate_payload_from_definition defn year ρ = .ok p ∧
      name ∈ p.map Prod.fst := by
  obtain ⟨p, hp⟩ := @generate_payload_go_ok year ρ defn hwf 0
  refine ⟨p, hp, ?_⟩
  apply generate_payload_go_mem hp hmem hsk
  intro r
  obtain ⟨t2, ht2, henum⟩ := wf_full_elim (hwf _ hmem) hsk
  rw [ht] at ht2
  have ht2' := Option.some.inj ht2
  subst ht2'
  have hcond : (toLowerStr t == "email" || toLowerStr t == "string") = true := by
    rcases hstr with h | h <;> simp [h]
  obtain ⟨s, hs⟩ := generate_string_ok a r (henum hcond)
  refine ⟨.str s, ?_⟩
  unfold dispatch_attribute
  dsimp only
  rw [ht]
  dsimp only
  rw [if_pos hcond, hs]
  rfl

/-- C10 witness: an email-typed attribute named `key` with
`primaryKey: true` still receives a value in the payload. -/
theorem C10_witness :
    ∃ p, generate_payload_from_definition
        [("key", .full { type := some "email", primaryKey := true })] 2026
        (fun _ _ => 0) = .ok p ∧ "key" ∈ p.map Prod.fst :=
  C10_theorem _ 2026 (fun _ _ => 0) "key" "email"
    { type := some "email", primaryKey := true }
    (by decide) (by decide) rfl (Or.inr (by decide)) rfl (by decide)

end MulticolourSeed
